import Mathlib

/-!
Shallow embedding of `src/index.ts` (cloud-trace-end-to-end).

The source defines three classes:

* `Sampler` — a fixed-interval rate limiter: a `traceWindow` (1000 divided by
  the clamped samples-per-second rate) and a mutable `nextTraceStart`.
  `shouldTrace(dateMillis)` rejects when `dateMillis < nextTraceStart`,
  otherwise admits and sets `nextTraceStart = dateMillis + traceWindow`.
* `MultiSampler` — a keyed registry of `Sampler`s: one lazily-created sampler
  per non-empty name (seeded with `samplerStart`, the registry's construction
  instant), plus a shared `unnamedSampler` for absent/empty names.
* `EndToEndTracePolicy` — the pipeline: external builtin filter, then the
  trace-options short-circuit, then the sampler.

Modelling choices: JavaScript numbers are modelled as `ℚ` (all arithmetic in
play — comparisons, addition, division by a non-zero rate — is exact);
mutation is modelled by explicit state passing, each stateful method
returning `Bool × State`; the `Record<string, Sampler>` object is modelled
as the pure partial map `String → Option Sampler`; the two `Date.now()`
reads of the `MultiSampler` constructor are explicit parameters; the
external `BuiltinTracePolicy` collaborator (not part of this repository)
is an opaque predicate `RequestDetails → Bool` supplied at construction.
-/

namespace CloudTrace

/-- The clamp applied by both constructors: `if (samplesPerSecond > 1000) samplesPerSecond = 1000`. -/
def clampRate (samplesPerSecondInput : ℚ) : ℚ :=
  if samplesPerSecondInput > 1000 then 1000 else samplesPerSecondInput

/-- State of the `Sampler` class. -/
structure Sampler where
  traceWindow : ℚ
  nextTraceStart : ℚ
deriving DecidableEq

/-- The `Sampler` constructor: `traceWindow = 1000 / samplesPerSecond` after
clamping; `nextTraceStart` is the second constructor argument (whose default
at a call site without it is the construction instant `Date.now()`). -/
def Sampler.create (samplesPerSecondInput : ℚ) (nextTraceStart : ℚ) : Sampler :=
  { traceWindow := 1000 / clampRate samplesPerSecondInput
    nextTraceStart := nextTraceStart }

/-- `Sampler.shouldTrace`: reject (no mutation) when `dateMillis <
nextTraceStart`; otherwise admit and set `nextTraceStart = dateMillis +
traceWindow`. -/
def Sampler.shouldTrace (s : Sampler) (dateMillis : ℚ) : Bool × Sampler :=
  if dateMillis < s.nextTraceStart then (false, s)
  else (true, { s with nextTraceStart := dateMillis + s.traceWindow })

/-- Run a sampler over a sequence of call times, collecting the results and
the final state. -/
def Sampler.run : Sampler → List ℚ → List Bool × Sampler
  | s, [] => ([], s)
  | s, t :: ts =>
    let r := s.shouldTrace t
    let rest := r.2.run ts
    (r.1 :: rest.1, rest.2)

/-- The call times of a run at which the sampler admitted (returned true),
in call order. -/
def Sampler.admittedTimes : Sampler → List ℚ → List ℚ
  | _, [] => []
  | s, t :: ts =>
    let r := s.shouldTrace t
    if r.1 then t :: r.2.admittedTimes ts else r.2.admittedTimes ts

/-- State of the `MultiSampler` class. -/
structure MultiSampler where
  samplers : String → Option Sampler
  samplesPerSecond : ℚ
  unnamedSampler : Sampler
  samplerStart : ℚ

/-- The `MultiSampler` constructor. It clamps the rate, starts with an empty
map, builds the unnamed sampler with the constructor-default seed
(`Date.now()`, the parameter `unnamedSeed`), and records `samplerStart =
new Date().getTime()` (a second clock read, the parameter `samplerStart`). -/
def MultiSampler.create (samplesPerSecondInput : ℚ)
    (unnamedSeed samplerStart : ℚ) : MultiSampler :=
  let samplesPerSecond := clampRate samplesPerSecondInput
  { samplers := fun _ => none
    samplesPerSecond := samplesPerSecond
    unnamedSampler := Sampler.create samplesPerSecond unnamedSeed
    samplerStart := samplerStart }

/-- `MultiSampler.getSampler`: `!name` (absent or empty) selects the unnamed
sampler; an unseen name constructs `new Sampler(samplesPerSecond,
samplerStart)`; a seen name returns the stored sampler. -/
def MultiSampler.getSampler (m : MultiSampler) (name : Option String) : Sampler :=
  match name with
  | none => m.unnamedSampler
  | some n =>
    if n = "" then m.unnamedSampler
    else
      match m.samplers n with
      | some s => s
      | none => Sampler.create m.samplesPerSecond m.samplerStart

/-- `MultiSampler.shouldTrace`: delegate to the sampler selected by
`getSampler`; the sampler's in-place mutation lands where the source stores
it (the map entry for a non-empty name — `getSampler` also inserts fresh
samplers there — or the `unnamedSampler` field otherwise). -/
def MultiSampler.shouldTrace (m : MultiSampler) (name : Option String)
    (timestamp : ℚ) : Bool × MultiSampler :=
  let r := (m.getSampler name).shouldTrace timestamp
  match name with
  | none => (r.1, { m with unnamedSampler := r.2 })
  | some n =>
    if n = "" then (r.1, { m with unnamedSampler := r.2 })
    else (r.1, { m with samplers := fun k => if k = n then some r.2 else m.samplers k })

/-- Run a registry over a sequence of (name, timestamp) calls. -/
def MultiSampler.run : MultiSampler → List (Option String × ℚ) → List Bool × MultiSampler
  | m, [] => ([], m)
  | m, c :: cs =>
    let r := m.shouldTrace c.1 c.2
    let rest := r.2.run cs
    (r.1 :: rest.1, rest.2)

/-- The fields of `RequestDetails` this policy reads: `timestamp`, the span
name `options?.name`, and the upstream trace-options flag
`traceContext?.options` (`none` models both a missing trace context and a
missing options field). The raw method/URL fields are consumed only by the
opaque external filter and are not re-modelled here. -/
structure RequestDetails where
  timestamp : ℚ
  name : Option String
  traceOptions : Option ℕ

/-- JavaScript truthiness of `details.traceContext?.options`: present and
non-zero. -/
def truthy (o : Option ℕ) : Bool :=
  match o with
  | none => false
  | some n => n != 0

/-- The sampler values the `EndToEndTracePolicy` constructor can assign:
the two fixed predicates of the commented special cases, or a live
`MultiSampler`. -/
inductive SamplerChoice where
  | alwaysTrue
  | alwaysFalse
  | multi (m : MultiSampler)

/-- Step a `SamplerChoice` exactly as `this.sampler.shouldTrace(details)`
would run it (the `MultiSampler` variant destructures `options?.name` and
`timestamp` from the request). -/
def SamplerChoice.shouldTrace : SamplerChoice → Option String → ℚ → Bool × SamplerChoice
  | .alwaysTrue, _, _ => (true, .alwaysTrue)
  | .alwaysFalse, _, _ => (false, .alwaysFalse)
  | .multi m, name, t =>
    let r := m.shouldTrace name t
    (r.1, .multi r.2)

/-- The value the conditional at the top of the `EndToEndTracePolicy`
constructor assigns to `this.sampler` (source lines 163–169): always-true
for rate 0, always-false for a negative rate, a live `MultiSampler`
otherwise. -/
def branchSampler (samplingRate : ℚ) (unnamedSeed samplerStart : ℚ) : SamplerChoice :=
  if samplingRate = 0 then .alwaysTrue
  else if samplingRate < 0 then .alwaysFalse
  else .multi (MultiSampler.create samplingRate unnamedSeed samplerStart)

/-- State of `EndToEndTracePolicy`: the external builtin filter (opaque
predicate) and the sampler. -/
structure EndToEndTracePolicy where
  builtinTracePolicy : RequestDetails → Bool
  sampler : SamplerChoice

/-- The `EndToEndTracePolicy` constructor as written: after the conditional
assignment (`branchSampler`), source line 171 unconditionally reassigns
`this.sampler = new MultiSampler(config.samplingRate)`, so the value held
when the constructor returns is always the `MultiSampler`, for every
`samplingRate`. -/
def EndToEndTracePolicy.create (filter : RequestDetails → Bool)
    (samplingRate : ℚ) (unnamedSeed samplerStart : ℚ) : EndToEndTracePolicy :=
  { builtinTracePolicy := filter
    sampler := .multi (MultiSampler.create samplingRate unnamedSeed samplerStart) }

/-- `EndToEndTracePolicy.shouldTrace`: builtin filter first (false short-
circuits to false), then the trace-options truthiness short-circuit to true,
then the sampler. -/
def EndToEndTracePolicy.shouldTrace (p : EndToEndTracePolicy)
    (details : RequestDetails) : Bool × EndToEndTracePolicy :=
  if p.builtinTracePolicy details = false then (false, p)
  else if truthy details.traceOptions then (true, p)
  else
    let r := p.sampler.shouldTrace details.name details.timestamp
    (r.1, { p with sampler := r.2 })

/-- Run a policy over a sequence of requests. -/
def EndToEndTracePolicy.run : EndToEndTracePolicy → List RequestDetails →
    List Bool × EndToEndTracePolicy
  | p, [] => ([], p)
  | p, r :: rs =>
    let x := p.shouldTrace r
    let rest := x.2.run rs
    (x.1 :: rest.1, rest.2)

/-- Membership of a time in the half-open interval `[a, a + L)`. -/
def inWindow (a L x : ℚ) : Bool :=
  decide (a ≤ x ∧ x < a + L)

end CloudTrace

namespace CloudTrace

/-! ## Shared helper lemmas -/

/-- The clamped rate of a positive rate is positive. -/
theorem clampRate_pos {r : ℚ} (h : 0 < r) : 0 < clampRate r := by
  unfold clampRate
  split
  · norm_num
  · exact h

/-- The clamped rate never exceeds the input rate. -/
theorem clampRate_le {r : ℚ} : clampRate r ≤ r := by
  unfold clampRate
  split
  · linarith
  · exact le_refl r

/-- A sampler built by the constructor from a positive rate has a positive
window. -/
theorem create_traceWindow_pos {r : ℚ} (t0 : ℚ) (h : 0 < r) :
    0 < (Sampler.create r t0).traceWindow :=
  div_pos (by norm_num) (clampRate_pos h)

/-! ## Claim theorems -/

/-- C2: `Sampler.shouldTrace` rejects without mutation when `now <
nextAdmissionTime` and otherwise admits, setting `nextAdmissionTime` to
`now + W`; consequently a fresh limiter at any positive rate admits its
first call at the seed instant and rejects a second call at that same
instant. -/
theorem sampler_shouldTrace_spec (s : Sampler) (now rate t0 : ℚ) (hrate : 0 < rate) :
    (now < s.nextTraceStart → s.shouldTrace now = (false, s)) ∧
    (s.nextTraceStart ≤ now →
      s.shouldTrace now = (true, { s with nextTraceStart := now + s.traceWindow })) ∧
    ((Sampler.create rate t0).shouldTrace t0).1 = true ∧
    (((Sampler.create rate t0).shouldTrace t0).2.shouldTrace t0).1 = false := by
  refine ⟨fun h => by simp [Sampler.shouldTrace, h],
          fun h => by simp [Sampler.shouldTrace, not_lt.mpr h], ?_, ?_⟩
  · simp [Sampler.create, Sampler.shouldTrace]
  · have hw : 0 < (Sampler.create rate t0).traceWindow := create_traceWindow_pos t0 hrate
    simp only [Sampler.create, Sampler.shouldTrace, lt_self_iff_false, if_false]
    simp only [Sampler.create] at hw
    simp [hw]

/-- C2 witness: concrete instance at rate 2, seed 0. -/
theorem sampler_shouldTrace_spec_witness :
    (Sampler.create 2 0).shouldTrace (-1) = (false, Sampler.create 2 0) ∧
    ((Sampler.create 2 0).shouldTrace 0).1 = true ∧
    (((Sampler.create 2 0).shouldTrace 0).2.shouldTrace 0).1 = false := by
  have h := sampler_shouldTrace_spec (Sampler.create 2 0) (-1) 2 0 (by norm_num)
  exact ⟨h.1 (by norm_num [Sampler.create]), h.2.2.1, h.2.2.2⟩

/-- C9: a rejected call leaves the sampler unchanged, so any number of
repeated calls at the same rejected time all return false and leave the
state unchanged. -/
theorem sampler_rejection_idempotent (s : Sampler) (t : ℚ)
    (h : (s.shouldTrace t).1 = false) :
    (s.shouldTrace t).2 = s ∧
    ∀ n : ℕ, s.run (List.replicate n t) = (List.replicate n false, s) := by
  have ht : t < s.nextTraceStart := by
    by_contra hc
    simp [Sampler.shouldTrace, hc] at h
  constructor
  · simp [Sampler.shouldTrace, ht]
  · intro n
    induction n with
    | zero => simp [Sampler.run]
    | succ k ih => simp [List.replicate_succ, Sampler.run, Sampler.shouldTrace, ht, ih]

/-- C9 witness: a sampler whose next admission is at 10 rejects at 0, three
times in a row, without mutation. -/
theorem sampler_rejection_idempotent_witness :
    ((⟨500, 10⟩ : Sampler).shouldTrace 0).2 = (⟨500, 10⟩ : Sampler) ∧
    (⟨500, 10⟩ : Sampler).run (List.replicate 3 0) =
      (List.replicate 3 false, (⟨500, 10⟩ : Sampler)) := by
  have h := sampler_rejection_idempotent ⟨500, 10⟩ 0 (by norm_num [Sampler.shouldTrace])
  exact ⟨h.1, h.2 3⟩

/-- C6 is refuted as stated: an admission sets `nextAdmissionTime` to
`now + windowMillis`, not to its previous value plus `windowMillis` — with
window 500 and next admission at 0, the admission at `now = 100` yields 600,
an increase of 600, not 500. -/
theorem sampler_admission_increment_counterexample :
    ((⟨500, 0⟩ : Sampler).shouldTrace 100).1 = true ∧
    ((⟨500, 0⟩ : Sampler).shouldTrace 100).2.nextTraceStart ≠
      (⟨500, 0⟩ : Sampler).nextTraceStart + (⟨500, 0⟩ : Sampler).traceWindow := by
  norm_num [Sampler.shouldTrace]

/-- C6 amended: an admission at `now` sets `nextAdmissionTime` to
`now + windowMillis`, which exceeds the previous value by at least
`windowMillis` (so strictly increases it when the window is positive); a
rejection leaves `nextAdmissionTime` unchanged. -/
theorem sampler_admission_update (s : Sampler) (now : ℚ) (hW : 0 < s.traceWindow) :
    ((s.shouldTrace now).1 = true →
      (s.shouldTrace now).2.nextTraceStart = now + s.traceWindow ∧
      s.nextTraceStart + s.traceWindow ≤ (s.shouldTrace now).2.nextTraceStart ∧
      s.nextTraceStart < (s.shouldTrace now).2.nextTraceStart) ∧
    ((s.shouldTrace now).1 = false →
      (s.shouldTrace now).2.nextTraceStart = s.nextTraceStart) := by
  unfold Sampler.shouldTrace
  split
  case isTrue h => simp
  case isFalse h =>
    push_neg at h
    refine ⟨fun _ => ⟨rfl, ?_, ?_⟩, fun hfalse => by simp at hfalse⟩
    · show s.nextTraceStart + s.traceWindow ≤ now + s.traceWindow
      linarith
    · show s.nextTraceStart < now + s.traceWindow
      linarith

/-- C6 amended witness: the admission at 100 from (window 500, next 0) sets
the next admission to 600. -/
theorem sampler_admission_update_witness :
    ((⟨500, 0⟩ : Sampler).shouldTrace 100).2.nextTraceStart = 600 := by
  have h := (sampler_admission_update ⟨500, 0⟩ 100 (by norm_num)).1
    (by norm_num [Sampler.shouldTrace])
  norm_num at h
  exact h.1

/-- C5 is refuted as stated: with rate 2 (window 500) and epoch 0, the run
A@0, B@50, A@100, A@600 yields [true, true, false, true] — key A behaves as
the claim says, but key B's first call at t=50 is admitted (its fresh
limiter is seeded with `nextAdmissionTime = epoch = 0 ≤ 50`), not rejected
as the claim's "corrected expectation: false" asserts. -/
theorem registry_epoch_seeding_counterexample :
    ((MultiSampler.create 2 0 0).run
        [(some "A", 0), (some "B", 50), (some "A", 100), (some "A", 600)]).1
      = [true, true, false, true] ∧
    ((MultiSampler.create 2 0 0).run
        [(some "A", 0), (some "B", 50), (some "A", 100), (some "A", 600)]).1
      ≠ [true, false, false, true] := by
  have h : ((MultiSampler.create 2 0 0).run
      [(some "A", 0), (some "B", 50), (some "A", 100), (some "A", 600)]).1
      = [true, true, false, true] := by
    simp [MultiSampler.run, MultiSampler.create, MultiSampler.shouldTrace,
      MultiSampler.getSampler, Sampler.create, Sampler.shouldTrace, clampRate]
    norm_num
  exact ⟨h, by rw [h]; simp⟩

/-- C5 amended: a first-seen key's limiter is constructed with
`nextAdmissionTime` equal to the registry's construction epoch, not the
current call time; with rate 2 and epoch 0 the run A@0, A@100, A@600 gives
true, false, true, and key B first called at t=50 is admitted (true),
because its seed 0 = epoch is ≤ 50 — the window only gates calls after the
first admission. -/
theorem registry_epoch_seeding (m : MultiSampler) (n : String) (t : ℚ)
    (hn : n ≠ "") (hnew : m.samplers n = none) :
    m.getSampler (some n) = Sampler.create m.samplesPerSecond m.samplerStart ∧
    (m.shouldTrace (some n) t).1 =
      ((Sampler.create m.samplesPerSecond m.samplerStart).shouldTrace t).1 ∧
    (m.shouldTrace (some n) t).2.samplers n =
      some ((Sampler.create m.samplesPerSecond m.samplerStart).shouldTrace t).2 ∧
    ((MultiSampler.create 2 0 0).run
        [(some "A", 0), (some "B", 50), (some "A", 100), (some "A", 600)]).1
      = [true, true, false, true] := by
  refine ⟨?_, ?_, ?_, ?_⟩
  · simp [MultiSampler.getSampler, hn, hnew]
  · simp [MultiSampler.shouldTrace, MultiSampler.getSampler, hn, hnew]
  · simp [MultiSampler.shouldTrace, MultiSampler.getSampler, hn, hnew]
  · have h : ((MultiSampler.create 2 0 0).run
        [(some "A", 0), (some "B", 50), (some "A", 100), (some "A", 600)]).1
        = [true, true, false, true] := by
      simp [MultiSampler.run, MultiSampler.create, MultiSampler.shouldTrace,
        MultiSampler.getSampler, Sampler.create, Sampler.shouldTrace, clampRate]
      norm_num
    exact h

/-- C5 amended witness: key B first seen at t=50 in a rate-2 epoch-0
registry is served by a limiter seeded at 0 and admitted. -/
theorem registry_epoch_seeding_witness :
    (MultiSampler.create 2 0 0).getSampler (some "B") = Sampler.create 2 0 ∧
    ((MultiSampler.create 2 0 0).shouldTrace (some "B") 50).1 =
      ((Sampler.create 2 0).shouldTrace 50).1 := by
  have h := registry_epoch_seeding (MultiSampler.create 2 0 0) "B" 50
    (by simp) (by simp [MultiSampler.create])
  have e1 : (MultiSampler.create 2 0 0).samplesPerSecond = 2 := by
    norm_num [MultiSampler.create, clampRate]
  have e2 : (MultiSampler.create 2 0 0).samplerStart = 0 := by
    norm_num [MultiSampler.create]
  refine ⟨?_, ?_⟩
  · rw [h.1, e1, e2]
  · rw [h.2.1, e1, e2]

/-- C1: the claim describes the intended construction-time selection, which
the constructor's own conditional (and its comment) implements, but source
line 171 then unconditionally reassigns `this.sampler = new
MultiSampler(config.samplingRate)`, nullifying the special cases: with
`samplingRate = -1` the branch picks the always-false rate stage, yet the
constructed policy holds a live `MultiSampler` and admits a request at t=0
that passes the filter and carries no flag (the spec mandates rejection). -/
theorem policy_constructor_overwrites_rate_stage :
    branchSampler (-1) 0 0 = SamplerChoice.alwaysFalse ∧
    (EndToEndTracePolicy.create (fun _ => true) (-1) 0 0).sampler =
      SamplerChoice.multi (MultiSampler.create (-1) 0 0) ∧
    ((EndToEndTracePolicy.create (fun _ => true) (-1) 0 0).shouldTrace
      ⟨0, none, none⟩).1 = true := by
  refine ⟨?_, rfl, ?_⟩
  · norm_num [branchSampler]
  · simp [EndToEndTracePolicy.create, EndToEndTracePolicy.shouldTrace, truthy,
      SamplerChoice.shouldTrace, MultiSampler.create, MultiSampler.shouldTrace,
      MultiSampler.getSampler, Sampler.create, Sampler.shouldTrace, clampRate]

/-- C3: once past the filter, a present non-zero trace-options flag makes
the decision true unconditionally (whatever the sampler state); with the
flag absent or zero the decision falls through to the rate stage; a request
the filter rejects is refused even if flagged. -/
theorem policy_flag_short_circuit (p : EndToEndTracePolicy) (r : RequestDetails) :
    (p.builtinTracePolicy r = true → truthy r.traceOptions = true →
      p.shouldTrace r = (true, p)) ∧
    (p.builtinTracePolicy r = true → truthy r.traceOptions = false →
      p.shouldTrace r = ((p.sampler.shouldTrace r.name r.timestamp).1,
        { p with sampler := (p.sampler.shouldTrace r.name r.timestamp).2 })) ∧
    (p.builtinTracePolicy r = false → p.shouldTrace r = (false, p)) := by
  refine ⟨fun hf ht => ?_, fun hf ht => ?_, fun hf => ?_⟩
  · simp [EndToEndTracePolicy.shouldTrace, hf, ht]
  · simp [EndToEndTracePolicy.shouldTrace, hf, ht]
  · simp [EndToEndTracePolicy.shouldTrace, hf]

/-- C3 witness: after the rate-1 budget of key K is consumed at t=0, a
flagged request for K at t=500 is still traced while the identical
unflagged request is rejected by the rate stage; and a filtered-out request
is refused even when flagged. -/
theorem policy_flag_short_circuit_witness :
    (((EndToEndTracePolicy.create (fun _ => true) 1 0 0).shouldTrace
        ⟨0, some "K", none⟩).2.shouldTrace ⟨500, some "K", some 1⟩
      = (true, ((EndToEndTracePolicy.create (fun _ => true) 1 0 0).shouldTrace
          ⟨0, some "K", none⟩).2)) ∧
    ((((EndToEndTracePolicy.create (fun _ => true) 1 0 0).shouldTrace
        ⟨0, some "K", none⟩).2.shouldTrace ⟨500, some "K", none⟩).1 = false) ∧
    ((EndToEndTracePolicy.create (fun _ => false) 1 0 0).shouldTrace
        ⟨0, some "K", some 1⟩
      = (false, EndToEndTracePolicy.create (fun _ => false) 1 0 0)) := by
  refine ⟨?_, ?_, ?_⟩
  · exact (policy_flag_short_circuit _ _).1 rfl rfl
  · rw [(policy_flag_short_circuit
      ((EndToEndTracePolicy.create (fun _ => true) 1 0 0).shouldTrace
        ⟨0, some "K", none⟩).2 ⟨500, some "K", none⟩).2.1 rfl rfl]
    simp [EndToEndTracePolicy.create, EndToEndTracePolicy.shouldTrace, truthy,
      SamplerChoice.shouldTrace, MultiSampler.create, MultiSampler.shouldTrace,
      MultiSampler.getSampler, Sampler.create, Sampler.shouldTrace, clampRate]
    norm_num
  · exact (policy_flag_short_circuit _ _).2.2 rfl

/-- C4: a request the external filter rejects yields false with the whole
policy state (hence every limiter) unchanged; so any number of filtered-out
requests leave the policy as it was, and the next request is decided
exactly as from the initial state. -/
theorem policy_filter_frame (p : EndToEndTracePolicy) (rs : List RequestDetails)
    (next : RequestDetails) (h : ∀ r ∈ rs, p.builtinTracePolicy r = false) :
    p.run rs = (List.replicate rs.length false, p) ∧
    (p.run rs).2.shouldTrace next = p.shouldTrace next := by
  have key : ∀ l : List RequestDetails, (∀ r ∈ l, p.builtinTracePolicy r = false) →
      p.run l = (List.replicate l.length false, p) := by
    intro l
    induction l with
    | nil => intro _; simp [EndToEndTracePolicy.run]
    | cons a as ih =>
      intro hl
      have ha : p.builtinTracePolicy a = false := hl a (by simp)
      have has := ih fun r hr => hl r (by simp [hr])
      simp [EndToEndTracePolicy.run, EndToEndTracePolicy.shouldTrace, ha, has,
        List.replicate_succ]
  exact ⟨key rs h, by rw [key rs h]⟩

/-- C4 witness: two filtered-out requests for key "drop" are refused, keep
the policy in its initial state, and do not change how the next request is
decided. -/
theorem policy_filter_frame_witness :
    (EndToEndTracePolicy.create (fun r => r.name != some "drop") 1 0 0).run
        [⟨0, some "drop", none⟩, ⟨1, some "drop", none⟩]
      = ([false, false],
          EndToEndTracePolicy.create (fun r => r.name != some "drop") 1 0 0) ∧
    ((EndToEndTracePolicy.create (fun r => r.name != some "drop") 1 0 0).run
        [⟨0, some "drop", none⟩, ⟨1, some "drop", none⟩]).2.shouldTrace
        ⟨2, some "K", none⟩
      = (EndToEndTracePolicy.create (fun r => r.name != some "drop") 1 0 0).shouldTrace
        ⟨2, some "K", none⟩ := by
  have h := policy_filter_frame
    (EndToEndTracePolicy.create (fun r => r.name != some "drop") 1 0 0)
    [⟨0, some "drop", none⟩, ⟨1, some "drop", none⟩] ⟨2, some "K", none⟩
    (by intro r hr; simp only [List.mem_cons, List.not_mem_nil, or_false] at hr
        rcases hr with rfl | rfl <;> rfl)
  exact ⟨by simpa using h.1, h.2⟩

/-- A call with a non-empty name changes nothing outside that name's map
entry. -/
theorem shouldTrace_named_frame (m : MultiSampler) (n : String) (t : ℚ) (hn : n ≠ "") :
    (m.shouldTrace (some n) t).2.unnamedSampler = m.unnamedSampler ∧
    (m.shouldTrace (some n) t).2.samplesPerSecond = m.samplesPerSecond ∧
    (m.shouldTrace (some n) t).2.samplerStart = m.samplerStart ∧
    ∀ k, k ≠ n → (m.shouldTrace (some n) t).2.samplers k = m.samplers k := by
  refine ⟨?_, ?_, ?_, fun k hk => ?_⟩
  · simp [MultiSampler.shouldTrace, hn]
  · simp [MultiSampler.shouldTrace, hn]
  · simp [MultiSampler.shouldTrace, hn]
  · simp [MultiSampler.shouldTrace, hn, hk]

/-- A run consisting only of non-empty-named calls never touches the
unnamed sampler. -/
theorem run_named_preserves_unnamed :
    ∀ (calls : List (Option String × ℚ)) (m : MultiSampler),
      (∀ c ∈ calls, ∃ k, c.1 = some k ∧ k ≠ "") →
      (m.run calls).2.unnamedSampler = m.unnamedSampler := by
  intro calls
  induction calls with
  | nil => intro m _; simp [MultiSampler.run]
  | cons c cs ih =>
    intro m h
    obtain ⟨k, hk1, hk2⟩ := h c (by simp)
    have step : (m.shouldTrace c.1 c.2).2.unnamedSampler = m.unnamedSampler := by
      rw [hk1]
      exact (shouldTrace_named_frame m k c.2 hk2).1
    rw [MultiSampler.run]
    show ((m.shouldTrace c.1 c.2).2.run cs).2.unnamedSampler = m.unnamedSampler
    rw [ih _ fun c' hc' => h c' (by simp [hc'])]
    exact step

/-- C8: a keyed call mutates at most its own key's limiter — a named call
preserves the unnamed sampler and every other key's entry, an unnamed (or
empty-named) call preserves the whole named map, a key's outcome depends
only on that key's stored limiter together with the shared rate and epoch,
and a run of named calls leaves the unnamed limiter's schedule untouched. -/
theorem registry_key_isolation (m m2 : MultiSampler) (n : String) (t : ℚ)
    (calls : List (Option String × ℚ)) (hn : n ≠ "")
    (hcalls : ∀ c ∈ calls, ∃ k, c.1 = some k ∧ k ≠ "") :
    ((m.shouldTrace (some n) t).2.unnamedSampler = m.unnamedSampler ∧
      ∀ k, k ≠ n → (m.shouldTrace (some n) t).2.samplers k = m.samplers k) ∧
    (m.shouldTrace none t).2.samplers = m.samplers ∧
    m.shouldTrace (some "") t = m.shouldTrace none t ∧
    (m.samplers n = m2.samplers n → m.samplesPerSecond = m2.samplesPerSecond →
      m.samplerStart = m2.samplerStart →
      (m.shouldTrace (some n) t).1 = (m2.shouldTrace (some n) t).1) ∧
    (m.unnamedSampler = m2.unnamedSampler →
      (m.shouldTrace none t).1 = (m2.shouldTrace none t).1) ∧
    (m.run calls).2.unnamedSampler = m.unnamedSampler := by
  refine ⟨⟨(shouldTrace_named_frame m n t hn).1,
          (shouldTrace_named_frame m n t hn).2.2.2⟩, ?_, ?_, ?_, ?_, ?_⟩
  · simp [MultiSampler.shouldTrace]
  · simp [MultiSampler.shouldTrace, MultiSampler.getSampler]
  · intro h1 h2 h3
    simp [MultiSampler.shouldTrace, MultiSampler.getSampler, hn, h1, h2, h3]
  · intro h1
    simp [MultiSampler.shouldTrace, MultiSampler.getSampler, h1]
  · exact run_named_preserves_unnamed calls m hcalls

/-- C8 witness: concrete two-key registry — the named call for "A" leaves
key "B" and the unnamed sampler untouched, and a named run leaves the
unnamed schedule unchanged. -/
theorem registry_key_isolation_witness :
    (((MultiSampler.create 1 0 0).shouldTrace (some "A") 0).2.unnamedSampler =
      (MultiSampler.create 1 0 0).unnamedSampler ∧
      ∀ k, k ≠ "A" → ((MultiSampler.create 1 0 0).shouldTrace (some "A") 0).2.samplers k =
        (MultiSampler.create 1 0 0).samplers k) ∧
    ((MultiSampler.create 1 0 0).shouldTrace none 0).2.samplers =
      (MultiSampler.create 1 0 0).samplers ∧
    (MultiSampler.create 1 0 0).shouldTrace (some "") 0 =
      (MultiSampler.create 1 0 0).shouldTrace none 0 ∧
    ((MultiSampler.create 1 0 0).samplers "A" = (MultiSampler.create 1 0 0).samplers "A" →
      (MultiSampler.create 1 0 0).samplesPerSecond = (MultiSampler.create 1 0 0).samplesPerSecond →
      (MultiSampler.create 1 0 0).samplerStart = (MultiSampler.create 1 0 0).samplerStart →
      ((MultiSampler.create 1 0 0).shouldTrace (some "A") 0).1 =
        ((MultiSampler.create 1 0 0).shouldTrace (some "A") 0).1) ∧
    ((MultiSampler.create 1 0 0).unnamedSampler = (MultiSampler.create 1 0 0).unnamedSampler →
      ((MultiSampler.create 1 0 0).shouldTrace none 0).1 =
        ((MultiSampler.create 1 0 0).shouldTrace none 0).1) ∧
    ((MultiSampler.create 1 0 0).run [(some "A", 0), (some "B", 50)]).2.unnamedSampler =
      (MultiSampler.create 1 0 0).unnamedSampler := by
  exact registry_key_isolation (MultiSampler.create 1 0 0) (MultiSampler.create 1 0 0)
    "A" 0 [(some "A", 0), (some "B", 50)] (by simp)
    (by intro c hc
        simp only [List.mem_cons, List.not_mem_nil, or_false] at hc
        rcases hc with rfl | rfl
        · exact ⟨"A", rfl, by simp⟩
        · exact ⟨"B", rfl, by simp⟩)

/-- With a nonnegative window, a sampler whose next admission is at or
after `B` rejects every call earlier than `B`, through a whole run. -/
theorem run_reject_below (B : ℚ) :
    ∀ (ts : List ℚ) (s : Sampler), 0 ≤ s.traceWindow → B ≤ s.nextTraceStart →
      ∀ pr ∈ ts.zip (s.run ts).1, pr.1 < B → pr.2 = false := by
  intro ts
  induction ts with
  | nil => intro s _ _ pr hpr; simp [Sampler.run] at hpr
  | cons t ts ih =>
    intro s hW hB pr hpr hlt
    rw [Sampler.run] at hpr
    by_cases h : t < s.nextTraceStart
    · simp only [Sampler.shouldTrace, if_pos h, List.zip_cons_cons, List.mem_cons] at hpr
      rcases hpr with rfl | hmem
      · rfl
      · exact ih s hW hB pr hmem hlt
    · simp only [Sampler.shouldTrace, if_neg h, List.zip_cons_cons, List.mem_cons] at hpr
      push_neg at h
      rcases hpr with rfl | hmem
      · exact absurd hlt (by simp; linarith)
      · refine ih _ (by simpa using hW) ?_ pr hmem hlt
        show B ≤ t + s.traceWindow
        linarith

/-- With a nonnegative window, every admitted time of a run is at or after
the sampler's initial next-admission instant. -/
theorem admittedTimes_lower :
    ∀ (ts : List ℚ) (s : Sampler), 0 ≤ s.traceWindow →
      ∀ x ∈ s.admittedTimes ts, s.nextTraceStart ≤ x := by
  intro ts
  induction ts with
  | nil => intro s _ x hx; simp [Sampler.admittedTimes] at hx
  | cons t ts ih =>
    intro s hW x hx
    rw [Sampler.admittedTimes] at hx
    by_cases h : t < s.nextTraceStart
    · simp only [Sampler.shouldTrace, if_pos h] at hx
      exact ih s hW x hx
    · simp [Sampler.shouldTrace, h] at hx
      push_neg at h
      rcases hx with rfl | hmem
      · exact h
      · have h2 : t + s.traceWindow ≤ x :=
          ih { s with nextTraceStart := t + s.traceWindow } (by simpa using hW) x hmem
        linarith

/-- With a nonnegative window, consecutive admitted times of a run are at
least one window apart (pairwise, in call order). -/
theorem admittedTimes_pairwise :
    ∀ (ts : List ℚ) (s : Sampler), 0 ≤ s.traceWindow →
      (s.admittedTimes ts).Pairwise (fun x y => x + s.traceWindow ≤ y) := by
  intro ts
  induction ts with
  | nil => intro s _; simp [Sampler.admittedTimes]
  | cons t ts ih =>
    intro s hW
    rw [Sampler.admittedTimes]
    by_cases h : t < s.nextTraceStart
    · simpa only [Sampler.shouldTrace, if_pos h] using ih s hW
    · simp [Sampler.shouldTrace, h, List.pairwise_cons]
      refine ⟨fun y hy => ?_,
        by simpa using ih { s with nextTraceStart := t + s.traceWindow } (by simpa using hW)⟩
      have h2 := admittedTimes_lower ts { s with nextTraceStart := t + s.traceWindow }
        (by simpa using hW) y hy
      simpa using h2

/-- C10: once a call at time `t` is admitted by a sampler with a positive
window `W`, every call of any subsequent sequence whose time lies below
`t + W` is rejected; every subsequently admitted time is at least `t + W`;
and subsequent admissions are themselves pairwise at least `W` apart. -/
theorem sampler_no_second_admission_in_window (s : Sampler) (t : ℚ)
    (hW : 0 < s.traceWindow) (hadm : (s.shouldTrace t).1 = true) (ts : List ℚ) :
    (∀ pr ∈ ts.zip ((s.shouldTrace t).2.run ts).1,
      pr.1 < t + s.traceWindow → pr.2 = false) ∧
    (∀ x ∈ (s.shouldTrace t).2.admittedTimes ts, t + s.traceWindow ≤ x) ∧
    ((s.shouldTrace t).2.admittedTimes ts).Pairwise
      (fun x y => x + s.traceWindow ≤ y) := by
  have hs' : (s.shouldTrace t).2 = { s with nextTraceStart := t + s.traceWindow } := by
    by_cases h : t < s.nextTraceStart
    · simp [Sampler.shouldTrace, h] at hadm
    · simp [Sampler.shouldTrace, h]
  refine ⟨?_, ?_, ?_⟩
  · rw [hs']
    exact run_reject_below (t + s.traceWindow) ts _ (le_of_lt hW) (le_refl _)
  · rw [hs']
    exact fun x hx => admittedTimes_lower ts { s with nextTraceStart := t + s.traceWindow }
      (le_of_lt hW) x hx
  · rw [hs']
    exact admittedTimes_pairwise ts { s with nextTraceStart := t + s.traceWindow }
      (le_of_lt hW)

/-- C10 witness: after the admission at 0 with window 500, the calls at 100
and 400 are both rejected. -/
theorem sampler_no_second_admission_in_window_witness :
    (∀ pr ∈ ([100, 400] : List ℚ).zip
        (((⟨500, 0⟩ : Sampler).shouldTrace 0).2.run [100, 400]).1,
      pr.1 < 0 + (⟨500, 0⟩ : Sampler).traceWindow → pr.2 = false) ∧
    (∀ x ∈ ((⟨500, 0⟩ : Sampler).shouldTrace 0).2.admittedTimes [100, 400],
      0 + (⟨500, 0⟩ : Sampler).traceWindow ≤ x) ∧
    (((⟨500, 0⟩ : Sampler).shouldTrace 0).2.admittedTimes [100, 400]).Pairwise
      (fun x y => x + (⟨500, 0⟩ : Sampler).traceWindow ≤ y) :=
  sampler_no_second_admission_in_window ⟨500, 0⟩ 0 (by norm_num)
    (by norm_num [Sampler.shouldTrace]) [100, 400]

/-- A nonempty list whose elements are pairwise at least `W` apart (in
order) and all lie in `[a, b)` has at most `⌈(b - a) / W⌉` elements. -/
theorem sep_length_bound (W : ℚ) (hW : 0 < W) :
    ∀ (l : List ℚ) (a b : ℚ), l ≠ [] →
      l.Pairwise (fun x y => x + W ≤ y) →
      (∀ x ∈ l, a ≤ x ∧ x < b) →
      (l.length : ℤ) ≤ ⌈(b - a) / W⌉ := by
  intro l
  induction l with
  | nil => intro a b hne; exact absurd rfl hne
  | cons x rest ih =>
    intro a b _ hpair hmem
    rcases List.pairwise_cons.mp hpair with ⟨hx, hrest⟩
    have hxa := (hmem x (by simp)).1
    have hxb := (hmem x (by simp)).2
    by_cases hr : rest = []
    · subst hr
      have h1 : 0 < (b - a) / W := div_pos (by linarith) hW
      have h2 : (0:ℤ) < ⌈(b - a) / W⌉ := Int.ceil_pos.mpr h1
      simp only [List.length_cons, List.length_nil, Nat.cast_one, Nat.cast_zero]
      omega
    · have key := ih (x + W) b hr hrest
        (fun y hy => ⟨hx y hy, (hmem y (by simp [hy])).2⟩)
      have e : (b - (x + W)) / W = (b - x) / W - 1 := by
        field_simp
        ring
      have mono : (b - x) / W ≤ (b - a) / W := by
        gcongr
      have step : ⌈(b - (x + W)) / W⌉ ≤ ⌈(b - a) / W⌉ - 1 := by
        rw [e, Int.ceil_sub_one]
        exact sub_le_sub_right (Int.ceil_le_ceil mono) 1
      simp only [List.length_cons]
      push_cast
      linarith

/-- C7: for a fresh limiter at rate `R > 0`, over any non-decreasing call
sequence, the number of admissions whose times fall in a half-open interval
of length `L ≥ 0` is at most `⌈L / (1000 / R)⌉ + 1`. -/
theorem sampler_interval_admission_bound (rate t0 a L : ℚ) (ts : List ℚ)
    (hrate : 0 < rate) (hL : 0 ≤ L) (_hmono : ts.Chain' (· ≤ ·)) :
    (((Sampler.create rate t0).admittedTimes ts).countP (inWindow a L) : ℤ)
      ≤ ⌈L / (1000 / rate)⌉ + 1 := by
  have hW : 0 < (Sampler.create rate t0).traceWindow := create_traceWindow_pos t0 hrate
  have hRpos : (0:ℚ) < 1000 / rate := div_pos (by norm_num) hrate
  have hWR : 1000 / rate ≤ (Sampler.create rate t0).traceWindow := by
    show (1000 : ℚ) / rate ≤ 1000 / clampRate rate
    gcongr
    · exact clampRate_pos hrate
    · exact clampRate_le
  rw [List.countP_eq_length_filter]
  have hpair : (((Sampler.create rate t0).admittedTimes ts).filter
      (inWindow a L)).Pairwise
      (fun x y => x + (Sampler.create rate t0).traceWindow ≤ y) :=
    (admittedTimes_pairwise ts (Sampler.create rate t0) (le_of_lt hW)).sublist
      (List.filter_sublist _)
  have hmem : ∀ x ∈ ((Sampler.create rate t0).admittedTimes ts).filter (inWindow a L),
      a ≤ x ∧ x < a + L := by
    intro x hx
    have h2 := List.of_mem_filter hx
    simpa [inWindow] using h2
  by_cases hne : ((Sampler.create rate t0).admittedTimes ts).filter (inWindow a L) = []
  · rw [hne]
    have h0 : (0:ℤ) ≤ ⌈L / (1000 / rate)⌉ :=
      Int.ceil_nonneg (div_nonneg hL (le_of_lt hRpos))
    simp only [List.length_nil, Nat.cast_zero]
    linarith
  · have hbound := sep_length_bound (Sampler.create rate t0).traceWindow hW
      (((Sampler.create rate t0).admittedTimes ts).filter (inWindow a L))
      a (a + L) hne hpair hmem
    have e : a + L - a = L := by ring
    rw [e] at hbound
    have mono : L / (Sampler.create rate t0).traceWindow ≤ L / (1000 / rate) := by
      gcongr
    have := Int.ceil_le_ceil mono
    linarith

/-- C7 witness: rate 2 (window 500), interval `[0, 1000)`, sorted calls at
0, 100, 500, 1000: at most `⌈1000 / 500⌉ + 1 = 3` admissions land in the
interval. -/
theorem sampler_interval_admission_bound_witness :
    ((((Sampler.create 2 0).admittedTimes [0, 100, 500, 1000]).countP
      (inWindow 0 1000)) : ℤ) ≤ ⌈(1000 : ℚ) / (1000 / 2)⌉ + 1 :=
  sampler_interval_admission_bound 2 0 0 1000 [0, 100, 500, 1000]
    (by norm_num) (by norm_num)
    (by simp [List.chain'_cons]; norm_num)

end CloudTrace
